import Mathlib

/-!
Verification development for the Daily Standup Agent repository.

The Python sources are shallowly embedded as executable Lean definitions:

* calendar dates are day numbers (`Int`, days since 1970-01-01, so that
  1970-01-01 is day 0, a Thursday); `weekday d = 0` means Monday, matching
  Python `date.weekday()`;
* timestamps inside one day are seconds since midnight (`Nat`);
* Python strings are `String` / `List Char` (ASCII behaviour of `lower`,
  `strip`, `\s`, `\w` and `\d` is modelled; the repository only feeds ASCII
  pattern text to these helpers);
* the two database tables are lists of rows; SQL statements become the
  corresponding pure list operations;
* values produced by `json.loads` are a `Json` inductive; Python `None`
  and JSON `null` coincide (as they do after `json.loads`);
* fallible functions return `Except`/`Option`; fresh `uuid4` tokens and
  "now" are threaded as explicit parameters.
-/

namespace Standup

/-! ## Python string primitives (ASCII model) -/

/-- ASCII lower-casing of one character, as `str.lower` acts on ASCII text. -/
def lowerChar (c : Char) : Char :=
  if 'A' ≤ c ∧ c ≤ 'Z' then Char.ofNat (c.toNat + 32) else c

/-- Characters removed by Python `str.strip()` / matched by `\s` (ASCII). -/
def isPyWs (c : Char) : Bool :=
  c = ' ' || c = '\t' || c = '\n' || c = '\r' || c = Char.ofNat 11 || c = Char.ofNat 12

/-- Python `str.strip()`: drop leading and trailing whitespace. -/
def pyStripL (l : List Char) : List Char :=
  ((l.dropWhile isPyWs).reverse.dropWhile isPyWs).reverse

/-- `isPrefixCh n h` : the char list `n` is a prefix of `h` (decidable, executable). -/
def isPrefixCh : List Char → List Char → Bool
  | [], _ => true
  | _ :: _, [] => false
  | a :: as, b :: bs => a = b && isPrefixCh as bs

/-- Python `needle in haystack` on strings: contiguous-substring test. -/
def containsSub (needle : List Char) : List Char → Bool
  | [] => isPrefixCh needle []
  | c :: t => isPrefixCh needle (c :: t) || containsSub needle t

/-- A word character for the regex `\b` boundary (`[a-zA-Z0-9_]`, ASCII). -/
def wordChar (c : Char) : Bool :=
  ('a' ≤ c && c ≤ 'z') || ('A' ≤ c && c ≤ 'Z') || ('0' ≤ c && c ≤ '9') || c = '_'

/-- Maximal leading digit run (the greedy `\d+`) and the remaining input. -/
def takeDigits : List Char → List Char × List Char
  | [] => ([], [])
  | c :: t =>
    if c.isDigit then
      let (ds, r) := takeDigits t
      (c :: ds, r)
    else ([], c :: t)

/-- The regex step `\s+`: require at least one whitespace char, consume the run. -/
def dropWs1 : List Char → Option (List Char)
  | [] => none
  | c :: t => if isPyWs c then some (t.dropWhile isPyWs) else none

/-- Numeric value of a digit run (Python `int` on the captured group). -/
def digitsVal (ds : List Char) : Nat :=
  ds.foldl (fun acc c => acc * 10 + (c.toNat - 48)) 0

/-! ## Calendar model

`date_parser.py` works with `datetime.date` values; we embed them as day
numbers since 1970-01-01 (day 0 = Thursday).  `weekday` matches Python
`date.weekday()` (Monday = 0). -/

/-- Python `date.weekday()`: Monday = 0 … Sunday = 6 (day 0 is a Thursday). -/
def weekday (d : Int) : Int := (d + 3) % 7

/-- Gregorian leap-year rule used by `datetime`. -/
def isLeap (y : Int) : Bool :=
  (y % 4 = 0 && y % 100 ≠ 0) || y % 400 = 0

/-- Days in a month of the proleptic Gregorian calendar (`datetime`). -/
def daysInMonth (y m : Int) : Int :=
  if m = 2 then (if isLeap y then 29 else 28)
  else if m = 4 || m = 6 || m = 9 || m = 11 then 30
  else 31

/-- Validity of a `YYYY-MM-DD` triple for `datetime.strptime` (year 1–9999). -/
def validYMD (y m d : Int) : Bool :=
  1 ≤ y && y ≤ 9999 && 1 ≤ m && m ≤ 12 && 1 ≤ d && d ≤ daysInMonth y m

/-- Day number since 1970-01-01 of a civil date (standard civil-calendar
algorithm; all intermediate divisions act on nonnegative values for the
year range accepted by `validYMD`). -/
def daysFromCivil (y m d : Int) : Int :=
  let y' := if m ≤ 2 then y - 1 else y
  let era := (if 0 ≤ y' then y' else y' - 399) / 400
  let yoe := y' - era * 400
  let mp := if m > 2 then m - 3 else m + 9
  let doy := (153 * mp + 2) / 5 + d - 1
  let doe := yoe * 365 + yoe / 4 - yoe / 100 + doy
  era * 146097 + doe - 719468

/-! ## Regex matchers used by `date_parser.py` -/

/-- All non-overlapping, leftmost matches of `\d{4}-\d{2}-\d{2}`
(`re.findall` / first element = `re.search`). -/
def findIsoAll : List Char → List (List Char)
  | a :: b :: c :: d :: '-' :: e :: f :: '-' :: g :: h :: rest =>
    if a.isDigit && b.isDigit && c.isDigit && d.isDigit &&
       e.isDigit && f.isDigit && g.isDigit && h.isDigit then
      [a, b, c, d, '-', e, f, '-', g, h] :: findIsoAll rest
    else
      findIsoAll (b :: c :: d :: '-' :: e :: f :: '-' :: g :: h :: rest)
  | _ :: t => findIsoAll t
  | [] => []

/-- `datetime.strptime(s, "%Y-%m-%d").date()` on a `\d{4}-\d{2}-\d{2}` match:
`none` models the `ValueError` on an invalid calendar date. -/
def parseIsoStr : List Char → Option Int
  | [a, b, c, d, _, e, f, _, g, h] =>
    let y : Int := digitsVal [a, b, c, d]
    let mo : Int := digitsVal [e, f]
    let dy : Int := digitsVal [g, h]
    if validYMD y mo dy then some (daysFromCivil y mo dy) else none
  | _ => none

/-- Match of `last\s+(\d+)\s+days?` anchored at the head of the input
(the trailing `s?` never affects the captured group). -/
def matchLastNAt : List Char → Option Nat
  | 'l' :: 'a' :: 's' :: 't' :: r1 =>
    match dropWs1 r1 with
    | some r2 =>
      let (ds, r3) := takeDigits r2
      if ds = [] then none
      else
        match dropWs1 r3 with
        | some ('d' :: 'a' :: 'y' :: _) => some (digitsVal ds)
        | _ => none
    | none => none
  | _ => none

/-- `re.search(r'last\s+(\d+)\s+days?', ·)`: leftmost match, captured group. -/
def searchLastNDays : List Char → Option Nat
  | [] => none
  | c :: t =>
    match matchLastNAt (c :: t) with
    | some n => some n
    | none => searchLastNDays t

/-- Match of `past\s+(\d+)\s+days?` anchored at the head of the input. -/
def matchPastNAt : List Char → Option Nat
  | 'p' :: 'a' :: 's' :: 't' :: r1 =>
    match dropWs1 r1 with
    | some r2 =>
      let (ds, r3) := takeDigits r2
      if ds = [] then none
      else
        match dropWs1 r3 with
        | some ('d' :: 'a' :: 'y' :: _) => some (digitsVal ds)
        | _ => none
    | none => none
  | _ => none

/-- `re.search(r'past\s+(\d+)\s+days?', ·)`: leftmost match, captured group. -/
def searchPastNDays : List Char → Option Nat
  | [] => none
  | c :: t =>
    match matchPastNAt (c :: t) with
    | some n => some n
    | none => searchPastNDays t

/-- Match of `(\d+)\s+days?\s+ago` anchored at the head of the input.
After `day`, an `s` is consumed when present (the regex alternative that
leaves it unconsumed can never continue, since `s` is not whitespace). -/
def matchDaysAgoAt (l : List Char) : Option Nat :=
  let (ds, r1) := takeDigits l
  if ds = [] then none
  else
    match dropWs1 r1 with
    | some ('d' :: 'a' :: 'y' :: r3) =>
      let r4 := match r3 with
        | 's' :: r => r
        | _ => r3
      match dropWs1 r4 with
      | some ('a' :: 'g' :: 'o' :: _) => some (digitsVal ds)
      | _ => none
    | _ => none

/-- `re.search(r'(\d+)\s+days?\s+ago', ·)`: leftmost match, captured group. -/
def searchDaysAgo : List Char → Option Nat
  | [] => none
  | c :: t =>
    match matchDaysAgoAt (c :: t) with
    | some n => some n
    | none => searchDaysAgo t

/-- `\blast week\b` matching at the very head of `l`, with `prev` the
character just before `l` (for the left word boundary). -/
def lastWeekAt (prev : Option Char) (l : List Char) : Bool :=
  isPrefixCh "last week".toList l &&
  (match prev with
   | none => true
   | some c => !wordChar c) &&
  (match l.drop 9 with
   | [] => true
   | c :: _ => !wordChar c)

/-- Scan for `\blast week\b` at every position. -/
def hasWordLastWeekAux (prev : Option Char) : List Char → Bool
  | [] => false
  | c :: t => lastWeekAt prev (c :: t) || hasWordLastWeekAux (some c) t

/-- `re.search(r'\blast week\b', ·) is not None`. -/
def hasWordLastWeek (l : List Char) : Bool :=
  hasWordLastWeekAux none l

/-! ## `date_parser.py` -/

/-- `get_last_monday` from `date_parser.py`: the Monday of the week of
`today` (the caller supplies `today`, which the source reads from the
clock via `get_today_wat`). -/
def get_last_monday (today : Int) : Int :=
  today - weekday today

/-- The `days_of_week` dict of `parse_date_query`, in its insertion order. -/
def daysOfWeek : List (String × Int) :=
  [("monday", 0), ("tuesday", 1), ("wednesday", 2), ("thursday", 3),
   ("friday", 4), ("saturday", 5), ("sunday", 6)]

/-- The `last [day of week]` loop of `parse_date_query`: first weekday name
`n` (in dict order) with `"last n"` in the lowered query wins. -/
def lastWeekdayHit (today : Int) (ql : List Char) : Option Int :=
  (daysOfWeek.find? fun p => containsSub ("last " ++ p.1).toList ql).map fun p =>
    let daysBack := (weekday today - p.2) % 7
    today - (if daysBack = 0 then 7 else daysBack)

/-- `parse_date_query` from `date_parser.py`.  `today` stands for
`get_today_wat()`; `.error` models the raised `ValueError`. -/
def parse_date_query (today : Int) (query : String) : Except String Int :=
  let ql := pyStripL (query.toList.map lowerChar)
  if containsSub "today".toList ql then .ok today
  else if containsSub "yesterday".toList ql &&
          !containsSub "day before yesterday".toList ql then .ok (today - 1)
  else if containsSub "day before yesterday".toList ql then .ok (today - 2)
  else
    match findIsoAll query.toList with
    | m :: _ =>
      (match parseIsoStr m with
       | some d => .ok d
       | none => .error ("Invalid date format: " ++ String.mk m))
    | [] =>
      match lastWeekdayHit today ql with
      | some d => .ok d
      | none =>
        match searchDaysAgo ql with
        | some n => .ok (today - (n : Int))
        | none => .ok today

/-- `parse_date_range_query` from `date_parser.py`.  `today` stands for
`get_today_wat()`; `.error` models the raised `ValueError`. -/
def parse_date_range_query (today : Int) (query : String) :
    Except String (Int × Int) :=
  let ql := pyStripL (query.toList.map lowerChar)
  if containsSub "this week".toList ql then .ok (get_last_monday today, today)
  else if hasWordLastWeek ql then
    .ok (get_last_monday today - 7, (get_last_monday today - 7) + 6)
  else if containsSub "last two weeks".toList ql ||
          containsSub "last 2 weeks".toList ql then
    .ok (get_last_monday today - 14, get_last_monday today - 1)
  else if containsSub "past week".toList ql then .ok (today - 6, today)
  else if containsSub "past two weeks".toList ql ||
          containsSub "past 2 weeks".toList ql then .ok (today - 13, today)
  else
    match searchLastNDays ql with
    | some n => .ok (today - ((n : Int) - 1), today)
    | none =>
      match searchPastNDays ql with
      | some n => .ok (today - ((n : Int) - 1), today)
      | none =>
        match findIsoAll query.toList with
        | m1 :: m2 :: _ =>
          (match parseIsoStr m1, parseIsoStr m2 with
           | some a, some b => if a > b then .ok (b, a) else .ok (a, b)
           | _, _ => .error "Invalid date format in range")
        | [m1] =>
          (match parseIsoStr m1 with
           | some a => .ok (a, a)
           | none => .error "Invalid date format")
        | [] =>
          if containsSub "today".toList ql then .ok (today, today)
          else if containsSub "yesterday".toList ql then
            .ok (today - 1, today - 1)
          else .ok (today, today)

/-! ## `time_window.py`

Times of day are seconds since local midnight; `WINDOW_START`/`WINDOW_END`
(`settings.py`, zero seconds by construction from hour/minute env values)
and the current time are explicit parameters. -/

/-- A single apostrophe, used inside user-facing message texts. -/
def apos : String := String.singleton '\''

/-- Zero-padded two-digit rendering (`f"{minute:02d}"`). -/
def pad2 (n : Nat) : String :=
  if n < 10 then "0" ++ toString n else toString n

/-- `is_within_window` from `time_window.py`: `WINDOW_START <= now <= WINDOW_END`. -/
def is_within_window (ws we now : Nat) : Bool :=
  ws ≤ now && now ≤ we

/-- `get_window_status` from `time_window.py`. -/
def get_window_status (ws we now : Nat) : String :=
  if now < ws then "before"
  else if now > we then "after"
  else "during"

/-- `format_time_12h` from `time_window.py` (argument in seconds since midnight). -/
def format_time_12h (t : Nat) : String :=
  let hour := t / 3600
  let minute := t % 3600 / 60
  let period := if hour < 12 then "AM" else "PM"
  let dh0 := if hour ≤ 12 then hour else hour - 12
  let dh := if dh0 = 0 then 12 else dh0
  toString dh ++ ":" ++ pad2 minute ++ " " ++ period

/-- `get_window_message` from `time_window.py`. -/
def get_window_message (ws we now : Nat) (user_name : String) : String :=
  let status := get_window_status ws we now
  let startStr := format_time_12h ws
  let endStr := format_time_12h we
  if status = "before" then
    "Thanks for being so early, " ++ user_name ++ "!\n\nHowever, standup submissions don" ++
      apos ++ "t open until " ++ startStr ++ " WAT. \nPlease come back then to submit your update." ++
      "\n\nIn the meantime, feel free to ask me for yesterday" ++ apos ++ "s summary!"
  else if status = "after" then
    "Hey " ++ user_name ++ "!\n\nUnfortunately, today" ++ apos ++ "s standup window closed at " ++
      endStr ++ " WAT. \nYour update for today can no longer be included in the daily summary." ++
      "\n\nYou can submit your standup tomorrow starting at " ++ startStr ++ " WAT." ++
      "\n\nWant to see today" ++ apos ++ "s summary? Just ask!"
  else
    "Perfect timing, " ++ user_name ++ "!"

/-! ## `database/operations.py`

The two tables are lists of rows; each SQL statement becomes the
corresponding pure list operation.  Timestamps are seconds (`Nat`),
dates are day numbers (`Int`). -/

/-- A row of the `standup_reports` table. -/
structure ReportRow where
  user_name : String
  report_date : Int
  submitted_at : Nat
  yesterday_work : Option String
  today_plan : String
  blockers : Option String
  additional_notes : Option String
  raw_message : String
  is_within_window : Bool
deriving DecidableEq

/-- A row of the `daily_summaries` table. -/
structure SummaryRow where
  summary_date : Int
  full_summary : String
  total_submissions : Int
  generated_at : Nat
deriving DecidableEq

/-- `has_submitted_today`: the `SELECT EXISTS` query over `standup_reports`. -/
def has_submitted_today (db : List ReportRow) (user_name : String) (report_date : Int) : Bool :=
  db.any fun r => r.user_name = user_name && r.report_date = report_date

/-- `save_standup_report`: `INSERT … ON CONFLICT (user_name, report_date)
DO NOTHING RETURNING report_id`; the result is `(inserted?, new table)`.
(The `except` branch that logs a database error and returns `False` is
outside the model, which has no failing store.) -/
def save_standup_report (db : List ReportRow) (user_name : String) (report_date : Int)
    (submitted_at : Nat) (raw_message : String) (yesterday_work : Option String)
    (today_plan : String) (blockers : Option String) (additional_notes : Option String)
    (is_within_window : Bool) : Bool × List ReportRow :=
  if db.any fun r => r.user_name = user_name && r.report_date = report_date then
    (false, db)
  else
    (true, db ++ [⟨user_name, report_date, submitted_at, yesterday_work, today_plan,
                   blockers, additional_notes, raw_message, is_within_window⟩])

/-- Python dict lookup on an association list (unique keys, insertion order). -/
def dictGet [DecidableEq α] : List (α × β) → α → Option β
  | [], _ => none
  | (k, v) :: t, k' => if k = k' then some v else dictGet t k'

/-- Python `key in dict`. -/
def dictMem [DecidableEq α] (m : List (α × β)) (k : α) : Bool :=
  (dictGet m k).isSome

/-- Python dict assignment `m[k] = v`: overwrite in place, else append. -/
def dictSet [DecidableEq α] : List (α × β) → α → β → List (α × β)
  | [], k, v => [(k, v)]
  | (k', v') :: t, k, v => if k' = k then (k, v) :: t else (k', v') :: dictSet t k v

/-- The dates produced by `while current_date <= end_date`, one per iteration. -/
def dateRangeAux : Nat → Int → List Int
  | 0, _ => []
  | n + 1, s => s :: dateRangeAux n (s + 1)

/-- All dates of the inclusive range `[s, e]`, in ascending order. -/
def dateRange (s e : Int) : List Int :=
  dateRangeAux (e + 1 - s).toNat s

/-- The dict comprehension `{user: None for user in user_names}` (duplicate
names collapse onto their first occurrence, as in a Python dict). -/
def initUsers (user_names : List String) : List (String × Option ReportRow) :=
  user_names.foldl (fun m u => dictSet m u (none : Option ReportRow)) []

/-- The fill-loop body of `get_reports_by_users_and_date_range`:
`result[report_date][user_name] = report`, guarded by the two `in` checks. -/
def fillStep (res : List (Int × List (String × Option ReportRow))) (r : ReportRow) :
    List (Int × List (String × Option ReportRow)) :=
  match dictGet res r.report_date with
  | some inner =>
    if dictMem inner r.user_name then
      dictSet res r.report_date (dictSet inner r.user_name (some r))
    else res
  | none => res

/-- `get_reports_by_users_and_date_range` from `operations.py`: pre-populate
every date of the range with `{user: None}` for each requested user, then
fill in the fetched rows.  (The SQL `ORDER BY` only affects which row wins
when several share a `(user, date)` pair, which the table's uniqueness
constraint rules out; the model fills rows in table order.) -/
def get_reports_by_users_and_date_range (db : List ReportRow) (user_names : List String)
    (start_date end_date : Int) : List (Int × List (String × Option ReportRow)) :=
  if user_names = [] then []
  else
    let reports := db.filter fun r =>
      user_names.contains r.user_name && start_date ≤ r.report_date && r.report_date ≤ end_date
    let init := (dateRange start_date end_date).map fun d => (d, initUsers user_names)
    reports.foldl fillStep init

/-- Total number of `(date, user)` cells in a result of
`get_reports_by_users_and_date_range`. -/
def totalEntries (m : List (Int × List (String × Option ReportRow))) : Nat :=
  (m.map fun p => p.2.length).sum

/-- `get_cached_summary`: `SELECT full_summary, total_submissions,
generated_at FROM daily_summaries WHERE summary_date = $1`. -/
def get_cached_summary (db : List SummaryRow) (summary_date : Int) :
    Option (String × Int × Nat) :=
  (db.find? fun r => r.summary_date = summary_date).map fun r =>
    (r.full_summary, r.total_submissions, r.generated_at)

/-- `cache_summary`: `INSERT … ON CONFLICT (summary_date) DO UPDATE`
(update the conflicting row in place, otherwise append). -/
def cache_summary (db : List SummaryRow) (summary_date : Int) (summary_text : String)
    (total_submissions : Int) (generated_at : Nat) : List SummaryRow :=
  if db.any fun r => r.summary_date = summary_date then
    db.map fun r =>
      if r.summary_date = summary_date then
        ⟨summary_date, summary_text, total_submissions, generated_at⟩
      else r
  else
    db ++ [⟨summary_date, summary_text, total_submissions, generated_at⟩]

/-! ## `tools/submit_standup.py`

The LLM extraction calls are modelled by their results, passed in through
`SubmitEnv`; the conversation state bag (`tool_context.state`) is the
truthiness of `asked_for_name` plus the optional pending payload.  The
output records the reply, the resulting state, the resulting table, and
whether `save_standup_report` was invoked. -/

/-- The four-field partial payload stored in `pending_standup_data`. -/
structure PendingStandup where
  yesterday_work : Option String
  today_plan : Option String
  blockers : Option String
  additional_notes : Option String
deriving DecidableEq

/-- The conversation state bag (`asked_for_name` as its truthiness). -/
structure ConvState where
  asked_for_name : Bool
  pending_standup_data : Option PendingStandup
deriving DecidableEq

/-- The JSON object returned by the first-pass extraction prompt
(`none` models both a missing key and JSON `null`). -/
structure ExtractedStandup where
  user_name : Option String
  yesterday_work : Option String
  today_plan : Option String
  blockers : Option String
  additional_notes : Option String
deriving DecidableEq

/-- Environment of one `submit_standup` turn: LLM results, clock, table. -/
structure SubmitEnv where
  /-- Result of the first-pass extraction prompt (`.error` = unparseable). -/
  firstExtraction : Except Unit ExtractedStandup
  /-- `name_data.get("user_name")` of the name-only prompt (`.error` = failure). -/
  nameExtraction : Except Unit (Option String)
  windowStart : Nat
  windowEnd : Nat
  now : Nat
  /-- `get_today_wat()`. -/
  today : Int
  db : List ReportRow

/-- Observable outcome of one `submit_standup` turn. -/
structure SubmitOut where
  reply : String
  state : ConvState
  db : List ReportRow
  /-- Whether `save_standup_report` was invoked this turn. -/
  saveCalled : Bool
deriving DecidableEq

/-- Python falsiness of an optional string (`None` or `""`). -/
def pyFalsyStr : Option String → Bool
  | none => true
  | some s => s = ""

/-- The check `not user_name or user_name == "null"`. -/
def nameMissing (s : Option String) : Bool :=
  pyFalsyStr s || s = some "null"

/-- Truthiness of `extracted.get(...)` for an optional string field. -/
def optTruthy : Option String → Bool
  | none => false
  | some s => s ≠ ""

/-- Python `repr` of an optional string (`None` or quoted). -/
def pyReprOptStr : Option String → String
  | none => "None"
  | some s => apos ++ s ++ apos

/-- Python `str(...)` of the pending-standup dict, as interpolated into
`raw_message` on the name-resumption path. -/
def pendingRepr (p : PendingStandup) : String :=
  "\x7b" ++ apos ++ "yesterday_work" ++ apos ++ ": " ++ pyReprOptStr p.yesterday_work ++
  ", " ++ apos ++ "today_plan" ++ apos ++ ": " ++ pyReprOptStr p.today_plan ++
  ", " ++ apos ++ "blockers" ++ apos ++ ": " ++ pyReprOptStr p.blockers ++
  ", " ++ apos ++ "additional_notes" ++ apos ++ ": " ++ pyReprOptStr p.additional_notes ++
  "\x7d"

/-- The prompt returned when the first-pass extraction found no name. -/
def askNameMsg : String :=
  "Thanks for the update! Before I save your standup, I need to know your name. What" ++
    apos ++ "s your name?"

/-- Reply when the first-pass extraction result was unparseable. -/
def extractFailMsg : String :=
  "Sorry, I couldn" ++ apos ++ "t understand your standup format. Please try again with: " ++
    apos ++ "Hi, I" ++ apos ++ "m [Your Name]. Yesterday I [work]. Today I" ++ apos ++
    "m [plan]." ++ apos

/-- Reply when the name-only extraction call failed. -/
def nameTroubleMsg : String :=
  "I had trouble understanding your name. Please tell me your name clearly."

/-- Reply when the name-only extraction returned no usable name. -/
def cantExtractNameMsg : String :=
  "I couldn" ++ apos ++ "t extract your name from that. Please tell me your name clearly, like " ++
    apos ++ "I" ++ apos ++ "m John" ++ apos ++ " or " ++ apos ++ "My name is Sarah" ++ apos ++ "."

/-- Reply of the (unreachable) second missing-name check. -/
def needNameMsg : String :=
  "Before I save your standup, I need to know your name. What" ++ apos ++ "s your name?"

/-- Reply when `today_plan` is missing. -/
def todayPlanMsg (user_name : String) : String :=
  "Hi " ++ user_name ++ "! I see what you did yesterday, but I need to know what you" ++
    apos ++ "re working on TODAY.\n\nPlease resubmit your standup including your plan for today."

/-- Reply on a duplicate same-day submission. -/
def dupMsg (user_name : String) : String :=
  "Hey " ++ user_name ++ "!\n\nYou" ++ apos ++ "ve already submitted your standup for today." ++
    "\nI can only accept one submission per person per day." ++
    "\n\nIf you need to make changes, please reach out to your team lead manually." ++
    "\n\nWant to see today" ++ apos ++ "s summary instead?"

/-- Reply when `save_standup_report` reported failure. -/
def saveFailMsg (user_name : String) : String :=
  "Error saving your standup, " ++ user_name ++ ". Please try again or contact support."

/-- The success reply, echoing yesterday (if given), today, blockers (if given). -/
def successMsg (user_name : String) (e : ExtractedStandup) (today_plan : String) : String :=
  let r := "Perfect timing, " ++ user_name ++ "! ✅\n\nI" ++ apos ++
    "ve recorded your standup update:"
  let r := if optTruthy e.yesterday_work then
    r ++ "\n• Yesterday: " ++ e.yesterday_work.getD "" else r
  let r := r ++ "\n• Today: " ++ today_plan
  let r := if optTruthy e.blockers then r ++ "\n• Blockers: " ++ e.blockers.getD "" else r
  r ++ "\n\nThanks for keeping the team informed!"

/-- The tail of `submit_standup` from the comment "At this point, we have
extracted data with a name" to the end (`origPending` is the
`pending_standup_data` value read at the start of the turn). -/
def submitContinue (message : String) (origPending : Option PendingStandup)
    (state : ConvState) (extracted : ExtractedStandup) (env : SubmitEnv) : SubmitOut :=
  match extracted.user_name with
  | none => ⟨needNameMsg, state, env.db, false⟩
  | some u =>
    if u = "" then ⟨needNameMsg, state, env.db, false⟩
    else if nameMissing extracted.today_plan then ⟨todayPlanMsg u, state, env.db, false⟩
    else
      let today_plan := extracted.today_plan.getD ""
      if !is_within_window env.windowStart env.windowEnd env.now then
        ⟨get_window_message env.windowStart env.windowEnd env.now u, state, env.db, false⟩
      else if has_submitted_today env.db u env.today then
        ⟨dupMsg u, state, env.db, false⟩
      else
        let raw := match origPending with
          | none => message
          | some p => "Name: " ++ u ++ " | Original: " ++ pendingRepr p
        let res := save_standup_report env.db u env.today env.now raw
          extracted.yesterday_work today_plan extracted.blockers
          extracted.additional_notes true
        if !res.1 then ⟨saveFailMsg u, state, res.2, true⟩
        else ⟨successMsg u extracted today_plan, state, res.2, true⟩

/-- `submit_standup` from `tools/submit_standup.py` (one conversational turn). -/
def submit_standup (message : String) (state : ConvState) (env : SubmitEnv) : SubmitOut :=
  match state.pending_standup_data, state.asked_for_name with
  | some p, true =>
    -- follow-up turn: the user is answering the name request
    (match env.nameExtraction with
     | .error _ => ⟨nameTroubleMsg, state, env.db, false⟩
     | .ok nm =>
       if nameMissing nm then ⟨cantExtractNameMsg, state, env.db, false⟩
       else
         let extracted : ExtractedStandup :=
           ⟨nm, p.yesterday_work, p.today_plan, p.blockers, p.additional_notes⟩
         submitContinue message (some p) ⟨false, none⟩ extracted env)
  | _, _ =>
    -- first message or a regular standup submission
    (match env.firstExtraction with
     | .error _ => ⟨extractFailMsg, state, env.db, false⟩
     | .ok extracted =>
       if nameMissing extracted.user_name then
         ⟨askNameMsg,
          ⟨true, some ⟨extracted.yesterday_work, extracted.today_plan,
                       extracted.blockers, extracted.additional_notes⟩⟩,
          env.db, false⟩
       else submitContinue message none state extracted env)

/-! ## `tools/get_user_summary.py` (statistics slice)

The slice of `get_user_summary` that decides whether the statistics block
(and its completion-rate division) is reached, and what its denominator
`len(user_names) * total_days` is.  `none` models the early returns
("no names extracted" / "No standup data found"). -/

/-- The denominator `len(user_names) * ((end_date - start_date).days + 1)`
of the completion-rate division, or `none` when an early return fires
before the statistics block. -/
def user_summary_stats (db : List ReportRow) (user_names : List String)
    (start_date end_date : Int) : Option Int :=
  if user_names = [] then none
  else
    let m := get_reports_by_users_and_date_range db user_names start_date end_date
    if m.isEmpty then none
    else some ((user_names.length : Int) * ((end_date - start_date) + 1))

/-! ## JSON values

Values produced by `request.json()` / `json.loads`.  Python `None` and
JSON `null` coincide after parsing, so both are `Json.null`. -/

/-- A parsed JSON value. -/
inductive Json where
  | null
  | bool (b : Bool)
  | num (n : Int)
  | str (s : String)
  | arr (xs : List Json)
  | obj (fields : List (String × Json))

/-- Python `dict.get(k)` (`none` = key absent).  In Python, `.get` on a
non-dict raises `AttributeError`, which the endpoint's catch-all turns
into an internal-error response; `wellShaped` keeps the claims on bodies
where no such raise happens, so the total `none` here is never observed. -/
def Json.get : Json → String → Option Json
  | .obj fs, k => dictGet fs k
  | _, _ => none

/-- Python `dict.get(k, d)`. -/
def Json.getD (j : Json) (k : String) (d : Json) : Json :=
  (j.get k).getD d

/-- Python `k in body` for a dict-shaped value. -/
def Json.hasKey (j : Json) (k : String) : Bool :=
  (j.get k).isSome

/-- Whether the value is a JSON object (Python dict). -/
def Json.isObj : Json → Bool
  | .obj _ => true
  | _ => false

/-- Python truthiness of a parsed JSON value. -/
def pyTruthy : Json → Bool
  | .null => false
  | .bool b => b
  | .num n => n ≠ 0
  | .str s => s ≠ ""
  | .arr xs => !xs.isEmpty
  | .obj fs => !fs.isEmpty

mutual
/-- Python `repr` of a parsed JSON value (string escaping is not modelled;
no claim applies `repr`/`str` to a string containing quotes). -/
def pyRepr : Json → String
  | .null => "None"
  | .bool true => "True"
  | .bool false => "False"
  | .num n => toString n
  | .str s => apos ++ s ++ apos
  | .arr xs => "[" ++ pyReprList xs ++ "]"
  | .obj fs => "\x7b" ++ pyReprFields fs ++ "\x7d"

/-- `repr` of list elements, comma-separated. -/
def pyReprList : List Json → String
  | [] => ""
  | [x] => pyRepr x
  | x :: y :: xs => pyRepr x ++ ", " ++ pyReprList (y :: xs)

/-- `repr` of dict entries, comma-separated. -/
def pyReprFields : List (String × Json) → String
  | [] => ""
  | [(k, v)] => apos ++ k ++ apos ++ ": " ++ pyRepr v
  | (k, v) :: f :: fs => apos ++ k ++ apos ++ ": " ++ pyRepr v ++ ", " ++ pyReprFields (f :: fs)
end

/-- Python `str(...)` of a parsed JSON value. -/
def pyStr : Json → String
  | .str s => s
  | j => pyRepr j

/-! ## `a2a_serializer.py` -/

/-- `_clean_html` scanning state machine for `re.sub('<.*?>', '', ·)`:
on `<` start buffering; a `>` before a newline closes the (non-greedy)
match and drops it; a newline aborts it (`.` does not match `\n`), and
the buffered text is kept verbatim. -/
def stripTagsAux : List Char → Option (List Char) → List Char
  | [], none => []
  | [], some buf => buf.reverse
  | c :: t, none =>
    if c = '<' then stripTagsAux t (some ['<']) else c :: stripTagsAux t none
  | c :: t, some buf =>
    if c = '>' then stripTagsAux t none
    else if c = '\n' then buf.reverse ++ '\n' :: stripTagsAux t none
    else stripTagsAux t (some (c :: buf))

/-- `re.sub('<.*?>', '', ·)`. -/
def stripTags (l : List Char) : List Char :=
  stripTagsAux l none

/-- `str.replace("&nbsp;", " ")`: all non-overlapping occurrences, left to right. -/
def replaceNbsp : List Char → List Char
  | '&' :: 'n' :: 'b' :: 's' :: 'p' :: ';' :: rest => ' ' :: replaceNbsp rest
  | c :: rest => c :: replaceNbsp rest
  | [] => []

/-- `str.strip()` on a `String`. -/
def pyStripS (s : String) : String :=
  String.mk (pyStripL s.toList)

/-- `_clean_html` from `a2a_serializer.py`. -/
def clean_html (raw : String) : String :=
  if raw = "" then ""
  else String.mk (pyStripL (replaceNbsp (stripTags raw.toList)))

/-- The string content of a `text` field handed to `_clean_html`.  A truthy
non-string there makes Python raise `TypeError` inside `re.sub`;
`wellShaped` excludes such bodies, so the `""` default is never observed. -/
def strOrEmpty : Json → String
  | .str s => s
  | _ => ""

/-- `p.get("kind") == k`. -/
def kindIs (p : Json) (k : String) : Bool :=
  match p.get "kind" with
  | some (.str s) => s = k
  | _ => false

/-- The generator predicate for the history (`"data"`-kind) part. -/
def isDataPart (p : Json) : Bool :=
  kindIs p "data" && pyTruthy (p.getD "data" .null)

/-- The generator predicate for the first `"text"`-kind part. -/
def isTextPart (p : Json) : Bool :=
  kindIs p "text" && pyTruthy (p.getD "text" .null)

/-- The `for data_item in reversed(data_array)` loop: the argument is the
already-reversed history, scanned for the first usable text item. -/
def historyText : List Json → Option String
  | [] => none
  | d :: rest =>
    match d with
    | .obj _ =>
      if kindIs d "text" then
        match d.get "text" with
        | some Json.null => historyText rest
        | some v =>
          let t := clean_html (strOrEmpty v)
          if t ≠ "" then some t else historyText rest
        | none => historyText rest
      else historyText rest
    | _ => historyText rest

mutual
/-- `find_text_recursive` from `extract_text_from_telex_message`. -/
def findTextRec : Json → Option String
  | .obj fs =>
    (match dictGet fs "text" with
     | some (.str s) =>
       let t := pyStripS (clean_html s)
       if t ≠ "" then some t else findTextRecFields fs
     | _ => findTextRecFields fs)
  | .arr xs => findTextRecList xs
  | _ => none

/-- `find_text_recursive` over the elements of a list value. -/
def findTextRecList : List Json → Option String
  | [] => none
  | x :: xs =>
    match findTextRec x with
    | some t => some t
    | none => findTextRecList xs

/-- `find_text_recursive` over `obj.values()` (insertion order). -/
def findTextRecFields : List (String × Json) → Option String
  | [] => none
  | (_, v) :: fs =>
    match findTextRec v with
    | some t => some t
    | none => findTextRecFields fs
end

/-- The `content` array fallback of `extract_text_from_telex_message`. -/
def contentText : List Json → Option String
  | [] => none
  | c :: cs =>
    match c with
    | .obj _ =>
      if (match c.get "type" with | some (.str s) => s = "text" | _ => false) &&
         c.hasKey "text" then
        let t := pyStripS (clean_html (strOrEmpty (c.getD "text" (.str ""))))
        if t ≠ "" then some t else contentText cs
      else contentText cs
    | _ => contentText cs

/-- `extract_text_from_telex_message` from `a2a_serializer.py`. -/
def extract_text_from_telex_message (message : Json) : String :=
  if !pyTruthy message then ""
  else
    let parts := message.getD "parts" (.arr [])
    let fromParts : Option String :=
      match parts with
      | .arr ps =>
        if ps.isEmpty then none
        else
          let fromData :=
            match ps.find? isDataPart with
            | some dp =>
              (match dp.getD "data" (.arr []) with
               | .arr ds => historyText ds.reverse
               | _ => none)
            | none => none
          match fromData with
          | some t => some t
          | none =>
            match ps.find? isTextPart with
            | some tp =>
              let t := clean_html (strOrEmpty (tp.getD "text" (.str "")))
              if t ≠ "" then some t else none
            | none => none
      | _ => none
    match fromParts with
    | some t => t
    | none =>
      let direct : Option String :=
        match message.get "text" with
        | some (.str s) =>
          let t := pyStripS (clean_html s)
          if t ≠ "" then some t else none
        | _ => none
      match direct with
      | some t => t
      | none =>
        let fromContent : Option String :=
          match message.getD "content" (.arr []) with
          | .arr cs => if cs.isEmpty then none else contentText cs
          | _ => none
        match fromContent with
        | some t => t
        | none =>
          match findTextRec message with
          | some t => t
          | none => ""

/-- `extract_context_id` from `a2a_serializer.py` (`fresh` is the
generated `uuid4` token of the final fallback). -/
def extract_context_id (fresh : String) (body : Json) : String :=
  let params := body.getD "params" (.obj [])
  match params.get "contextId" with
  | some v => pyStr v
  | none =>
  match params.get "context_id" with
  | some v => pyStr v
  | none =>
  let message := params.getD "message" (.obj [])
  let metadata := message.getD "metadata" (.obj [])
  match metadata.get "telex_channel_id" with
  | some v => pyStr v
  | none =>
  match metadata.get "channel_id" with
  | some v => pyStr v
  | none =>
  match metadata.get "conversation_id" with
  | some v => pyStr v
  | none =>
  match params.get "sessionId" with
  | some v => pyStr v
  | none => "telex-" ++ fresh

/-- The candidate field value `extract_context_id` converts with `str`,
in the source's lookup order (`none` = every candidate absent). -/
def firstCandidate (body : Json) : Option Json :=
  let params := body.getD "params" (.obj [])
  match params.get "contextId" with
  | some v => some v
  | none =>
  match params.get "context_id" with
  | some v => some v
  | none =>
  let message := params.getD "message" (.obj [])
  let metadata := message.getD "metadata" (.obj [])
  match metadata.get "telex_channel_id" with
  | some v => some v
  | none =>
  match metadata.get "channel_id" with
  | some v => some v
  | none =>
  match metadata.get "conversation_id" with
  | some v => some v
  | none => params.get "sessionId"

/-- Python `a or b` over parsed JSON values. -/
def pyOr (a b : Json) : Json :=
  if pyTruthy a then a else b

/-- `generate_daily_session_id`: `f"{telex_user_id}-{today}"` with `today`
the current UTC date rendered `DDMMYYYY` (passed in as `todayStr`). -/
def generate_daily_session_id (todayStr : String) (telex_user_id : Json) : String :=
  pyStr telex_user_id ++ "-" ++ todayStr

/-- The record returned by `parse_telex_request`. -/
structure ParsedRequest where
  request_id : Json
  method : Json
  message_text : String
  message_id : Json
  context_id : String
  session_id : String
  telex_user_id : Json
  metadata : Json
  configuration : Json

/-- `parse_telex_request` from `a2a_serializer.py`.  The `fresh…` arguments
are the `uuid4` tokens the source would generate; the `try` around
`generate_daily_session_id` is dead in the model because string
formatting cannot fail. -/
def parse_telex_request (freshReqId freshMsgId freshCtx freshSession todayStr : String)
    (body : Json) : ParsedRequest :=
  let request_id := body.getD "id" (.str freshReqId)
  let method := body.getD "method" (.str "message/send")
  let params := body.getD "params" (.obj [])
  let message_obj := params.getD "message" (.obj [])
  let message_id := pyOr (message_obj.getD "messageId" .null)
    (pyOr (message_obj.getD "message_id" .null) (.str freshMsgId))
  let metadata := message_obj.getD "metadata" (.obj [])
  let text := extract_text_from_telex_message message_obj
  let context_id := extract_context_id freshCtx body
  let telex_user_id := pyOr (metadata.getD "telex_user_id" .null)
    (pyOr (metadata.getD "user_id" .null) (pyOr (metadata.getD "userId" .null) (.str "")))
  let session_id :=
    if pyTruthy telex_user_id then generate_daily_session_id todayStr telex_user_id
    else if context_id ≠ "" then context_id
    else "session-" ++ freshSession
  ⟨request_id, method, text, message_id, context_id, session_id, telex_user_id,
   metadata, params.getD "configuration" (.obj [])⟩

/-! ## `main.py` routing slice

The decision structure of the `POST /` handler (`handle_rpc`) up to the
first session/agent side effect. -/

/-- Outcome of the routing decisions of `handle_rpc`. -/
inductive Route where
  /-- `JSONResponse(build_a2a_error_response(id, code, message))`, HTTP 200. -/
  | a2aError (request_id : Json) (code : Int) (message : String)
  /-- The Telex branch proceeds to the session service and agent runner. -/
  | telexProcess (parsed : ParsedRequest)
  /-- A raise inside the handler (e.g. `.lower()` on a truthy non-string
  method), answered by the catch-all with a -32603 envelope. -/
  | internalError
  /-- `JSONResponse({"error": message}, status_code=status)`. -/
  | simpleError (message : String) (status : Nat)
  /-- The simple branch proceeds to the session service and agent runner. -/
  | simpleProcess (message : Json) (session_id : Json)

/-- The routing condition `method and ("message" in method.lower() or
"send" in method.lower())` for a string-valued method. -/
def isMsgSendMethod (m : String) : Bool :=
  m ≠ "" && (containsSub "message".toList (m.toList.map lowerChar) ||
             containsSub "send".toList (m.toList.map lowerChar))

/-- The routing decisions of `handle_rpc` from `main.py` (`fresh…` are the
`uuid4` tokens the handler or serializer would generate). -/
def handle_rpc_route (freshReqId freshMsgId freshCtx freshSession todayStr freshChat : String)
    (body : Json) : Route :=
  if body.hasKey "jsonrpc" && body.hasKey "method" then
    let parsed := parse_telex_request freshReqId freshMsgId freshCtx freshSession todayStr body
    match parsed.method with
    | .str m =>
      if isMsgSendMethod m then
        if parsed.message_text = "" then
          .a2aError parsed.request_id (-32602) "Invalid params: message text is required"
        else .telexProcess parsed
      else
        .a2aError parsed.request_id (-32601)
          ("Method " ++ apos ++ m ++ apos ++ " not supported")
    | j =>
      if pyTruthy j then .internalError
      else
        .a2aError parsed.request_id (-32601)
          ("Method " ++ apos ++ pyStr j ++ apos ++ " not supported")
  else
    let message := body.getD "message" (.str "")
    let session_id :=
      let v := body.getD "session_id" .null
      if pyTruthy v then v else .str ("chat-" ++ freshChat)
    if !pyTruthy message then .simpleError "Message is required" 400
    else .simpleProcess message session_id

/-! ## Well-shaped request bodies

`wellShaped` captures the request bodies on which the Python inbound
parsing (`parse_telex_request` with `extract_text_from_telex_message` and
`extract_context_id`) completes without raising — every `.get`/`in` is
applied to a dict and every `text` value handed to `_clean_html` is a
string.  (It is slightly conservative: it also constrains `text` fields
the extraction never reaches.)  Non-well-shaped bodies take the
endpoint's catch-all exception path instead of the branches modelled by
`handle_rpc_route`'s Telex arm. -/

/-- Any present `text` field is `null` or a string. -/
def textFieldOk (j : Json) : Bool :=
  match j.get "text" with
  | some (.str _) => true
  | some Json.null => true
  | some _ => false
  | none => true

/-- A `parts` element: a dict whose `text` (and any history item's `text`)
is null-or-string. -/
def partOk (p : Json) : Bool :=
  p.isObj && textFieldOk p &&
  (match p.getD "data" .null with
   | .arr ds => ds.all fun d =>
     match d with
     | .obj _ => textFieldOk d
     | _ => true
   | _ => true)

/-- See the section comment: bodies whose inbound parse cannot raise. -/
def wellShaped (body : Json) : Bool :=
  body.isObj &&
  (let params := body.getD "params" (.obj [])
   params.isObj &&
   (let message := params.getD "message" (.obj [])
    message.isObj &&
    (message.getD "metadata" (.obj [])).isObj &&
    (match message.getD "parts" (.arr []) with
     | .arr ps => ps.all partOk
     | _ => true) &&
    (match message.getD "content" (.arr []) with
     | .arr cs => cs.all fun c =>
       match c with
       | .obj _ => textFieldOk c
       | _ => true
     | _ => true)))

/-! # Theorems -/

/-! ## C1: duplicate `save_standup_report` -/

/-- Claim C1 (confirmed): for every table state and every `(user, date)`
pair, calling `save_standup_report` a second time after a first call for
that pair returns `false` and leaves the table — in particular the first
row's fields — unmodified, and the pair occupies exactly `max` of its
previous count and one row (so at most one row per pair ever exists). -/
theorem c1_saveReport_duplicate (db : List ReportRow) (u : String) (d : Int)
    (t1 t2 : Nat) (raw1 raw2 : String) (yw1 yw2 : Option String) (tp1 tp2 : String)
    (bl1 bl2 an1 an2 : Option String) (w1 w2 : Bool) :
    save_standup_report (save_standup_report db u d t1 raw1 yw1 tp1 bl1 an1 w1).2
        u d t2 raw2 yw2 tp2 bl2 an2 w2 =
      (false, (save_standup_report db u d t1 raw1 yw1 tp1 bl1 an1 w1).2) ∧
    (save_standup_report db u d t1 raw1 yw1 tp1 bl1 an1 w1).2.countP
        (fun r => r.user_name = u && r.report_date = d) =
      max (db.countP fun r => r.user_name = u && r.report_date = d) 1 := by
  by_cases h : (db.any fun r => r.user_name = u && r.report_date = d) = true
  · have hpos : 0 < db.countP (fun r => r.user_name = u && r.report_date = d) := by
      rw [List.any_eq_true] at h
      obtain ⟨r, hr, hp⟩ := h
      exact List.countP_pos_iff.mpr ⟨r, hr, hp⟩
    constructor
    · simp only [save_standup_report, if_pos h]
    · simp only [save_standup_report, if_pos h]
      omega
  · have hz : db.countP (fun r => r.user_name = u && r.report_date = d) = 0 := by
      refine List.countP_eq_zero.mpr fun r hr => ?_
      intro hp
      exact h (List.any_eq_true.mpr ⟨r, hr, hp⟩)
    have hrow : (fun r : ReportRow => r.user_name = u && r.report_date = d)
        ⟨u, d, t1, yw1, tp1, bl1, an1, raw1, w1⟩ = true := by simp
    constructor
    · simp only [save_standup_report, if_neg h]
      have h2 : ((db ++ [(⟨u, d, t1, yw1, tp1, bl1, an1, raw1, w1⟩ : ReportRow)]).any
          fun r => r.user_name = u && r.report_date = d) = true := by
        rw [List.any_eq_true]
        exact ⟨_, List.mem_append_right _ (List.mem_singleton_self _), hrow⟩
      simp only [if_pos h2]
    · simp only [save_standup_report, if_neg h, List.countP_append]
      rw [hz]
      simp [List.countP_cons, hrow]

/-! ## C5: window status and `is_within_window` -/

/-- Claim C5 (confirmed): for every configured window and current time,
`is_within_window` is true exactly when `get_window_status` is `"during"`;
and whenever the configured start is not after the configured end, both
boundary instants have status `"during"` and are within the window. -/
theorem c5_window_status_iff (ws we t : Nat) :
    (is_within_window ws we t = true ↔ get_window_status ws we t = "during") ∧
    (ws ≤ we →
      get_window_status ws we ws = "during" ∧ get_window_status ws we we = "during" ∧
      is_within_window ws we ws = true ∧ is_within_window ws we we = true) := by
  have hbd : ("before" : String) ≠ "during" := by decide
  have had : ("after" : String) ≠ "during" := by decide
  constructor
  · unfold is_within_window get_window_status
    by_cases h1 : t < ws
    · simp only [if_pos h1]
      constructor
      · intro h
        simp only [Bool.and_eq_true, decide_eq_true_eq] at h
        omega
      · intro h
        exact absurd h hbd
    · by_cases h2 : t > we
      · simp only [if_neg h1, if_pos h2]
        constructor
        · intro h
          simp only [Bool.and_eq_true, decide_eq_true_eq] at h
          omega
        · intro h
          exact absurd h had
      · simp only [if_neg h1, if_neg h2]
        constructor
        · intro _
          trivial
        · intro _
          simp only [Bool.and_eq_true, decide_eq_true_eq]
          omega
  · intro hle
    unfold is_within_window get_window_status
    have h1 : ¬ ws < ws := by omega
    have h2 : ¬ ws > we := by omega
    have h3 : ¬ we < ws := by omega
    have h4 : ¬ we > we := by omega
    refine ⟨by simp only [if_neg h1, if_neg h2], by simp only [if_neg h3, if_neg h4], ?_, ?_⟩
    · simp only [Bool.and_eq_true, decide_eq_true_eq]
      omega
    · simp only [Bool.and_eq_true, decide_eq_true_eq]
      omega

/-- Witness for C5 at the default window 09:30–12:30 (in seconds). -/
theorem c5_window_status_iff_witness :
    get_window_status 34200 45000 34200 = "during" ∧
    get_window_status 34200 45000 45000 = "during" ∧
    is_within_window 34200 45000 34200 = true ∧
    is_within_window 34200 45000 45000 = true :=
  (c5_window_status_iff 34200 45000 0).2 (by decide)

/-! ## C7: cache upsert round-trip -/

/-- After the upsert's `DO UPDATE` map, `find?` for the date returns the
fresh row (provided some row with that date existed). -/
theorem cacheSummary_find_of_any (db : List SummaryRow) (d : Int) (text : String)
    (n : Int) (t : Nat) (h : (db.any fun r => r.summary_date = d) = true) :
    ((db.map fun r => if r.summary_date = d then (⟨d, text, n, t⟩ : SummaryRow) else r).find?
      fun r => r.summary_date = d) = some ⟨d, text, n, t⟩ := by
  induction db with
  | nil => simp at h
  | cons r rest ih =>
    by_cases hr : r.summary_date = d
    · simp [List.find?, hr]
    · have h' : (rest.any fun r => r.summary_date = d) = true := by
        simpa [List.any_cons, hr] using h
      simpa [List.find?, hr] using ih h'

/-- `find?` skips a list in which no row has the date. -/
theorem cacheSummary_find_append (db : List SummaryRow) (new : SummaryRow)
    (d : Int) (h : (db.any fun r => r.summary_date = d) = false)
    (hnew : new.summary_date = d) :
    ((db ++ [new]).find? fun r => r.summary_date = d) = some new := by
  induction db with
  | nil => simp [List.find?, hnew]
  | cons r rest ih =>
    have hr : ¬ r.summary_date = d := by
      intro hc
      simp [List.any_cons, hc] at h
    have h' : (rest.any fun r => r.summary_date = d) = false := by
      simpa [List.any_cons, hr] using h
    simpa [List.find?, hr] using ih h'

/-- With pairwise-distinct dates, a date is matched by at most one row. -/
theorem countP_date_le_one (db : List SummaryRow) (d : Int)
    (h : (db.map SummaryRow.summary_date).Nodup) :
    db.countP (fun r => r.summary_date = d) ≤ 1 := by
  induction db with
  | nil => simp
  | cons r rest ih =>
    rw [List.map_cons, List.nodup_cons] at h
    by_cases hr : r.summary_date = d
    · have hz : rest.countP (fun r => r.summary_date = d) = 0 := by
        refine List.countP_eq_zero.mpr fun x hx => ?_
        simp only [decide_eq_true_eq]
        intro hc
        exact h.1 (hr ▸ hc ▸ List.mem_map_of_mem SummaryRow.summary_date hx)
      simp [List.countP_cons, hr, hz]
    · simpa [List.countP_cons, hr] using ih h.2

/-- Claim C7 (confirmed): `cache_summary` followed by `get_cached_summary`
on the same date returns exactly the stored text, count and timestamp; and
when the table's unique-date invariant holds before the call, exactly one
row for the date exists afterwards (overwritten, not kept or duplicated). -/
theorem c7_cache_roundtrip (db : List SummaryRow) (d : Int) (text : String)
    (n : Int) (t : Nat) :
    get_cached_summary (cache_summary db d text n t) d = some (text, n, t) ∧
    ((db.map SummaryRow.summary_date).Nodup →
      (cache_summary db d text n t).countP (fun r => r.summary_date = d) = 1) := by
  constructor
  · by_cases h : (db.any fun r => r.summary_date = d) = true
    · unfold cache_summary get_cached_summary
      rw [if_pos h, cacheSummary_find_of_any db d text n t h]
      rfl
    · unfold cache_summary get_cached_summary
      rw [if_neg h,
        cacheSummary_find_append db _ d (Bool.not_eq_true _ ▸ h : _ = false) rfl]
      rfl
  · intro hnd
    by_cases h : (db.any fun r => r.summary_date = d) = true
    · unfold cache_summary
      rw [if_pos h, List.countP_map]
      have hcongr : ∀ r ∈ db,
          (((fun r : SummaryRow => decide (r.summary_date = d)) ∘
            fun r => if r.summary_date = d then (⟨d, text, n, t⟩ : SummaryRow) else r) r = true ↔
          decide (r.summary_date = d) = true) := by
        intro r _
        by_cases hr : r.summary_date = d <;> simp [hr]
      rw [List.countP_congr hcongr]
      have hle := countP_date_le_one db d hnd
      have hpos : 0 < db.countP (fun r => r.summary_date = d) := by
        rw [List.any_eq_true] at h
        obtain ⟨r, hr, hp⟩ := h
        exact List.countP_pos_iff.mpr ⟨r, hr, hp⟩
      omega
    · unfold cache_summary
      rw [if_neg h, List.countP_append]
      have hz : db.countP (fun r => r.summary_date = d) = 0 := by
        refine List.countP_eq_zero.mpr fun r hr => ?_
        intro hp
        exact h (List.any_eq_true.mpr ⟨r, hr, hp⟩)
      simp [hz, List.countP_cons]

/-- Witness for C7: overwrite of an existing cached row for day 10. -/
theorem c7_cache_roundtrip_witness :
    get_cached_summary (cache_summary [⟨10, "old", 2, 5⟩] 10 "new" 3 9) 10 =
      some ("new", 3, 9) ∧
    (cache_summary [⟨10, "old", 2, 5⟩] 10 "new" 3 9).countP
      (fun r => r.summary_date = 10) = 1 :=
  ⟨(c7_cache_roundtrip [⟨10, "old", 2, 5⟩] 10 "new" 3 9).1,
   (c7_cache_roundtrip [⟨10, "old", 2, 5⟩] 10 "new" 3 9).2 (by decide)⟩

/-! ## C3: `parse_date_query` and invalid embedded ISO dates -/

/-- Counterexample for C3: `parse_date_query` raises (`.error`) on input
containing a `YYYY-MM-DD`-shaped substring that is not a valid calendar
date, instead of falling back to today. -/
theorem c3_parse_date_counterexample :
    parse_date_query 0 "2025-13-45" = .error "Invalid date format: 2025-13-45" := by
  rfl

/-- Claim C3 (corrected): `parse_date_query` returns a date for every
input except those whose first `YYYY-MM-DD`-shaped substring is not a
valid calendar date (and no earlier keyword branch fired); on such inputs
it raises `ValueError` instead of falling back to today. -/
theorem c3_parse_date_total_unless_bad_iso (today : Int) (query : String) :
    (∃ d, parse_date_query today query = .ok d) ∨
    (∃ m, (findIsoAll query.toList).head? = some m ∧ parseIsoStr m = none) := by
  rcases hok : parse_date_query today query with msg | d
  · right
    simp only [parse_date_query] at hok
    split at hok
    · simp at hok
    · split at hok
      · simp at hok
      · split at hok
        · simp at hok
        · split at hok
          · rename_i m tail hfind
            split at hok
            · simp at hok
            · rename_i hbad
              refine ⟨m, ?_, hbad⟩
              rw [show findIsoAll query.toList = m :: tail from hfind]
              rfl
          · split at hok
            · simp at hok
            · split at hok
              · simp at hok
              · simp at hok
  · exact .inl ⟨d, rfl⟩

/-! ## C6: the "last week" range -/

/-- Claim C6 (confirmed): on every evaluation day, `parse_date_range_query`
on "last week" returns the inclusive range from the previous week's Monday
to the Sunday six days later, which ends strictly before the Monday of the
current week. -/
theorem c6_last_week_range (today : Int) :
    parse_date_range_query today "last week" =
      .ok (get_last_monday today - 7, (get_last_monday today - 7) + 6) ∧
    weekday (get_last_monday today - 7) = 0 ∧
    weekday ((get_last_monday today - 7) + 6) = 6 ∧
    (get_last_monday today - 7) + 6 < get_last_monday today := by
  refine ⟨rfl, ?_, ?_, ?_⟩
  · simp only [get_last_monday, weekday]
    omega
  · simp only [get_last_monday, weekday]
    omega
  · simp only [get_last_monday, weekday]
    omega

/-! ## C4: missing-name branch of the submission workflow -/

/-- Claim C4 (confirmed): whenever the conversation is not in the
awaiting-name state and the first-pass extraction succeeds but yields no
usable name, `submit_standup` stores the asked-for-name flag together with
the four-field partial payload, replies with the name prompt, and neither
validates `today_plan` (no constraint on it appears below) nor invokes
`save_standup_report` (even when `today_plan` is also missing). -/
theorem c4_missing_name_transition (message : String) (state : ConvState)
    (env : SubmitEnv) (e : ExtractedStandup)
    (hfresh : state.asked_for_name = false ∨ state.pending_standup_data = none)
    (hex : env.firstExtraction = .ok e)
    (hname : nameMissing e.user_name = true) :
    submit_standup message state env =
      ⟨askNameMsg,
       ⟨true, some ⟨e.yesterday_work, e.today_plan, e.blockers, e.additional_notes⟩⟩,
       env.db, false⟩ := by
  obtain ⟨asked, pending⟩ := state
  match pending, asked with
  | some p, true =>
    simp only [ConvState.asked_for_name, ConvState.pending_standup_data] at hfresh
    rcases hfresh with h | h <;> exact absurd h (by simp)
  | some p, false =>
    simp only [submit_standup, hex, hname, if_pos]
  | none, true =>
    simp only [submit_standup, hex, hname, if_pos]
  | none, false =>
    simp only [submit_standup, hex, hname, if_pos]

/-- Witness for C4: a fresh-state turn whose extraction has no name and no
today-plan still answers with the name prompt, stores the payload and does
not touch the table. -/
theorem c4_missing_name_transition_witness :
    submit_standup "standup text" ⟨false, none⟩
      ⟨.ok ⟨none, some "wrote tests", none, none, some "note"⟩, .ok none,
       34200, 45000, 36000, 20000, []⟩ =
      ⟨askNameMsg, ⟨true, some ⟨some "wrote tests", none, none, some "note"⟩⟩, [], false⟩ :=
  c4_missing_name_transition "standup text" ⟨false, none⟩
    ⟨.ok ⟨none, some "wrote tests", none, none, some "note"⟩, .ok none,
     34200, 45000, 36000, 20000, []⟩
    ⟨none, some "wrote tests", none, none, some "note"⟩
    (Or.inl rfl) rfl rfl

/-! ## Dict and date-range lemmas (shared by C2 and C9) -/

/-- A key is present in an association dict iff it occurs among the keys. -/
theorem dictGet_isSome_iff_mem_fst [DecidableEq α] (m : List (α × β)) (k : α) :
    (dictGet m k).isSome ↔ k ∈ m.map Prod.fst := by
  induction m with
  | nil => simp [dictGet]
  | cons p t ih =>
    obtain ⟨k', v⟩ := p
    by_cases h : k' = k
    · subst h
      simp [dictGet]
    · have h' : ¬ k = k' := fun hc => h hc.symm
      simp [dictGet, h, h', ih]

/-- Assigning to a present key leaves the key list unchanged. -/
theorem dictSet_map_fst_of_mem [DecidableEq α] (m : List (α × β)) (k : α) (v : β)
    (h : (dictGet m k).isSome) :
    (dictSet m k v).map Prod.fst = m.map Prod.fst := by
  induction m with
  | nil => simp [dictGet] at h
  | cons p t ih =>
    obtain ⟨k', v'⟩ := p
    by_cases hk : k' = k
    · subst hk
      simp [dictSet]
    · have h' : (dictGet t k).isSome := by simpa [dictGet, hk] using h
      simp [dictSet, hk, ih h']

/-- A successful lookup exhibits a member. -/
theorem dictGet_mem [DecidableEq α] (m : List (α × β)) (k : α) (w : β)
    (h : dictGet m k = some w) : (k, w) ∈ m := by
  induction m with
  | nil => simp [dictGet] at h
  | cons p t ih =>
    obtain ⟨k0, v0⟩ := p
    by_cases hk : k0 = k
    · subst hk
      rw [show dictGet ((k0, v0) :: t) k0 = some v0 by simp [dictGet]] at h
      injection h with h'
      subst h'
      exact List.mem_cons_self _ _
    · have h' : dictGet t k = some w := by simpa [dictGet, hk] using h
      exact List.mem_cons_of_mem _ (ih h')

/-- Every member of `dictSet m k v` is the new pair or an old member. -/
theorem dictSet_mem_or [DecidableEq α] (m : List (α × β)) (k : α) (v : β) :
    ∀ p ∈ dictSet m k v, p = (k, v) ∨ p ∈ m := by
  induction m with
  | nil =>
    intro p hp
    rw [show dictSet ([] : List (α × β)) k v = [(k, v)] from rfl] at hp
    exact .inl (List.mem_singleton.mp hp)
  | cons q t ih =>
    obtain ⟨k0, v0⟩ := q
    intro p hp
    by_cases hk : k0 = k
    · rw [show dictSet ((k0, v0) :: t) k v = (k, v) :: t by simp [dictSet, hk]] at hp
      rcases List.mem_cons.mp hp with h1 | h1
      · exact .inl h1
      · exact .inr (List.mem_cons_of_mem _ h1)
    · rw [show dictSet ((k0, v0) :: t) k v = (k0, v0) :: dictSet t k v by
        simp [dictSet, hk]] at hp
      rcases List.mem_cons.mp hp with h1 | h1
      · exact .inr (h1 ▸ List.mem_cons_self _ _)
      · rcases ih p h1 with h2 | h2
        · exact .inl h2
        · exact .inr (List.mem_cons_of_mem _ h2)

/-- Lookup after an assignment: present iff the new key or previously present. -/
theorem dictGet_dictSet_isSome [DecidableEq α] (m : List (α × β)) (k : α) (v : β)
    (k' : α) :
    (dictGet (dictSet m k v) k').isSome ↔ k' = k ∨ (dictGet m k').isSome := by
  induction m with
  | nil =>
    by_cases h : k = k'
    · subst h
      simp [dictSet, dictGet]
    · have h' : ¬ k' = k := fun hc => h hc.symm
      simp [dictSet, dictGet, h, h']
  | cons p t ih =>
    obtain ⟨k0, v0⟩ := p
    by_cases hk : k0 = k
    · subst hk
      by_cases h' : k0 = k'
      · subst h'
        simp [dictSet, dictGet]
      · have h'' : ¬ k' = k0 := fun hc => h' hc.symm
        simp [dictSet, dictGet, h', h'']
    · by_cases h' : k0 = k'
      · subst h'
        simp [dictSet, dictGet, hk]
      · have h'' : ¬ k' = k0 := fun hc => h' hc.symm
        simp [dictSet, dictGet, hk, h', h'', ih]

/-- Assignment preserves distinctness of the keys. -/
theorem dictSet_nodup_fst [DecidableEq α] (m : List (α × β)) (k : α) (v : β)
    (h : (m.map Prod.fst).Nodup) : ((dictSet m k v).map Prod.fst).Nodup := by
  induction m with
  | nil => simp [dictSet]
  | cons p t ih =>
    obtain ⟨k0, v0⟩ := p
    rw [List.map_cons, List.nodup_cons] at h
    by_cases hk : k0 = k
    · subst hk
      simpa [dictSet, List.nodup_cons] using h
    · rw [show dictSet ((k0, v0) :: t) k v = (k0, v0) :: dictSet t k v by
        simp [dictSet, hk]]
      rw [List.map_cons, List.nodup_cons]
      refine ⟨?_, ih h.2⟩
      intro hc
      rw [← dictGet_isSome_iff_mem_fst, dictGet_dictSet_isSome] at hc
      rcases hc with hc | hc
      · exact hk hc
      · exact h.1 ((dictGet_isSome_iff_mem_fst t k0).mp hc)

/-- Key presence in the pre-populated user dict. -/
theorem initUsers_aux_isSome (users : List String) :
    ∀ (m : List (String × Option ReportRow)) (u : String),
      (dictGet (users.foldl (fun m u => dictSet m u none) m) u).isSome ↔
        u ∈ users ∨ (dictGet m u).isSome := by
  induction users with
  | nil => simp
  | cons u0 t ih =>
    intro m u
    rw [List.foldl_cons, ih (dictSet m u0 none) u, dictGet_dictSet_isSome]
    simp only [List.mem_cons]
    tauto

/-- A user appears in `initUsers users` exactly when requested. -/
theorem initUsers_isSome (users : List String) (u : String) :
    (dictGet (initUsers users) u).isSome ↔ u ∈ users := by
  rw [initUsers, initUsers_aux_isSome users [] u]
  simp [dictGet]

/-- The pre-populated user dict has pairwise-distinct keys. -/
theorem initUsers_nodup_fst (users : List String) :
    ((initUsers users).map Prod.fst).Nodup := by
  have aux : ∀ (m : List (String × Option ReportRow)), (m.map Prod.fst).Nodup →
      (((users.foldl (fun m u => dictSet m u none) m)).map Prod.fst).Nodup := by
    induction users with
    | nil => intro m h; simpa using h
    | cons u0 t ih =>
      intro m h
      exact ih _ (dictSet_nodup_fst m u0 none h)
  simpa [initUsers] using aux [] (by simp)

/-- The pre-populated user dict has one cell per distinct requested user. -/
theorem initUsers_length (users : List String) :
    (initUsers users).length = users.dedup.length := by
  have h1 := initUsers_nodup_fst users
  have h2 : ((initUsers users).map Prod.fst).toFinset = users.toFinset := by
    ext u
    simp only [List.mem_toFinset]
    rw [← dictGet_isSome_iff_mem_fst]
    exact initUsers_isSome users u
  calc (initUsers users).length
      = ((initUsers users).map Prod.fst).length := (List.length_map _ _).symm
    _ = ((initUsers users).map Prod.fst).toFinset.card :=
        (List.toFinset_card_of_nodup h1).symm
    _ = users.toFinset.card := by rw [h2]
    _ = users.dedup.length := List.card_toFinset users

/-- One fill step never changes the date keys. -/
theorem fillStep_map_fst (res : List (Int × List (String × Option ReportRow)))
    (r : ReportRow) : (fillStep res r).map Prod.fst = res.map Prod.fst := by
  unfold fillStep
  split
  · rename_i inner hin
    split
    · exact dictSet_map_fst_of_mem res r.report_date _ (by rw [hin]; rfl)
    · rfl
  · rfl

/-- The whole fill loop never changes the date keys. -/
theorem fill_foldl_map_fst (rows : List ReportRow) :
    ∀ res, ((rows.foldl fillStep res).map Prod.fst) = res.map Prod.fst := by
  induction rows with
  | nil => intro res; rfl
  | cons r t ih =>
    intro res
    rw [List.foldl_cons, ih (fillStep res r), fillStep_map_fst]

/-- One fill step preserves "every inner dict has key list `keys`". -/
theorem fillStep_inner_inv (keys : List String)
    (res : List (Int × List (String × Option ReportRow))) (r : ReportRow)
    (h : ∀ q ∈ res, q.2.map Prod.fst = keys) :
    ∀ q ∈ fillStep res r, q.2.map Prod.fst = keys := by
  unfold fillStep
  split
  · rename_i inner hin
    split
    · rename_i hmem
      intro q hq
      rcases dictSet_mem_or res r.report_date (dictSet inner r.user_name (some r)) q hq with
        h1 | h1
      · rw [h1]
        have : (dictSet inner r.user_name (some r)).map Prod.fst = inner.map Prod.fst :=
          dictSet_map_fst_of_mem inner r.user_name (some r) hmem
        rw [this]
        exact h (r.report_date, inner) (dictGet_mem res r.report_date inner hin)
      · exact h q h1
    · exact h
  · exact h

/-- The whole fill loop preserves the inner key lists. -/
theorem fill_foldl_inner_inv (keys : List String) (rows : List ReportRow) :
    ∀ res, (∀ q ∈ res, q.2.map Prod.fst = keys) →
      ∀ q ∈ rows.foldl fillStep res, q.2.map Prod.fst = keys := by
  induction rows with
  | nil => intro res h; exact h
  | cons r t ih =>
    intro res h
    exact ih (fillStep res r) (fillStep_inner_inv keys res r h)

/-- When every inner dict has the same key list, the total cell count is
the number of dates times the number of inner keys. -/
theorem totalEntries_of_inner (m : List (Int × List (String × Option ReportRow)))
    (keys : List String) (h : ∀ q ∈ m, q.2.map Prod.fst = keys) :
    totalEntries m = m.length * keys.length := by
  induction m with
  | nil => simp [totalEntries]
  | cons q t ih =>
    have hq : q.2.length = keys.length := by
      rw [← List.length_map q.2 Prod.fst, h q (List.mem_cons_self _ _)]
    have ht := ih fun p hp => h p (List.mem_cons_of_mem _ hp)
    simp only [totalEntries, List.map_cons, List.sum_cons] at *
    rw [hq, ht, List.length_cons]
    ring

/-- Membership in the generated date list. -/
theorem dateRangeAux_mem (n : Nat) :
    ∀ (s d : Int), d ∈ dateRangeAux n s ↔ s ≤ d ∧ d < s + n := by
  induction n with
  | zero =>
    intro s d
    simp only [dateRangeAux, List.not_mem_nil, false_iff, not_and, not_lt]
    intro _
    omega
  | succ k ih =>
    intro s d
    simp only [dateRangeAux, List.mem_cons, ih]
    omega

/-- Membership in `dateRange s e` is exactly the inclusive interval. -/
theorem dateRange_mem (s e d : Int) : d ∈ dateRange s e ↔ s ≤ d ∧ d ≤ e := by
  rw [dateRange, dateRangeAux_mem]
  omega

/-- The generated dates are pairwise distinct. -/
theorem dateRangeAux_nodup (n : Nat) : ∀ s, (dateRangeAux n s).Nodup := by
  induction n with
  | zero => intro s; simp [dateRangeAux]
  | succ k ih =>
    intro s
    rw [dateRangeAux, List.nodup_cons]
    refine ⟨?_, ih (s + 1)⟩
    rw [dateRangeAux_mem]
    omega

/-- The generated dates are pairwise distinct. -/
theorem dateRange_nodup (s e : Int) : (dateRange s e).Nodup :=
  dateRangeAux_nodup _ s

/-- One date cell per loop iteration. -/
theorem dateRangeAux_length (n : Nat) : ∀ s, (dateRangeAux n s).length = n := by
  induction n with
  | zero => intro s; rfl
  | succ k ih => intro s; simp [dateRangeAux, ih]

/-- The date list covers each day of the range once. -/
theorem dateRange_length (s e : Int) : (dateRange s e).length = (e + 1 - s).toNat :=
  dateRangeAux_length _ s

/-- For a non-empty user list, the result has one entry per day of the range. -/
theorem get_reports_length (db : List ReportRow) (users : List String) (s e : Int)
    (hu : users ≠ []) :
    (get_reports_by_users_and_date_range db users s e).length = (e + 1 - s).toNat := by
  unfold get_reports_by_users_and_date_range
  rw [if_neg hu]
  have h1 := fill_foldl_map_fst
    (db.filter fun r => users.contains r.user_name && s ≤ r.report_date && r.report_date ≤ e)
    ((dateRange s e).map fun d => (d, initUsers users))
  have h2 := congrArg List.length h1
  simpa [dateRange_length] using h2

/-! ## C9: range ordering and the statistics denominator -/

/-- Counterexample for C9: `parse_date_range_query` on "last 0 days"
returns the pair (tomorrow, today), whose start is strictly after its end. -/
theorem c9_range_order_counterexample :
    parse_date_range_query 0 "last 0 days" = .ok (1, 0) ∧ ¬ ((1 : Int) ≤ 0) :=
  ⟨rfl, by decide⟩

/-- Claim C9 (corrected): every range returned by `parse_date_range_query`
is ordered except for "last/past 0 days"-style queries, which yield
`(today + 1, today)`; and the user-scoped summary's statistics denominator
is reached only when the report matrix is non-empty, in which case it is
strictly positive — so the completion-rate division never divides by zero
even for the unordered ranges. -/
theorem c9_range_order_and_stats :
    (∀ (today : Int) (query : String) (s e : Int),
        parse_date_range_query today query = .ok (s, e) →
        s ≤ e ∨ (s = today + 1 ∧ e = today)) ∧
    (∀ (db : List ReportRow) (users : List String) (s e v : Int),
        user_summary_stats db users s e = some v → 0 < v) := by
  constructor
  · intro today query s e h
    simp only [parse_date_range_query, get_last_monday, weekday] at h
    repeat' split at h
    all_goals first
      | exact Except.noConfusion h
      | (simp only [Except.ok.injEq, Prod.mk.injEq] at h
         obtain ⟨hs, he⟩ := h
         subst hs
         subst he
         omega)
  · intro db users s e v h
    simp only [user_summary_stats] at h
    split at h
    · exact absurd h (by simp)
    · rename_i hu
      split at h
      · exact absurd h (by simp)
      · rename_i hne
        simp only [Option.some.injEq] at h
        have hlen := get_reports_length db users s e hu
        have hpos : 0 < (get_reports_by_users_and_date_range db users s e).length := by
          cases hm : get_reports_by_users_and_date_range db users s e with
          | nil => rw [hm] at hne; simp at hne
          | cons q t => simp [hm]
        have hse : 0 < e + 1 - s := by
          rw [hlen] at hpos
          omega
        have hul : 0 < users.length := List.length_pos.mpr hu
        rw [← h]
        have : (0 : Int) < (users.length : Int) := by exact_mod_cast hul
        exact mul_pos this (by omega)

/-- Witness for C9's amended claim: "today" parses to an ordered one-day
range, and a one-user one-day matrix with a stored report yields a
positive statistics denominator. -/
theorem c9_range_order_and_stats_witness :
    ((0 : Int) ≤ 0 ∨ ((0 : Int) = 0 + 1 ∧ (0 : Int) = 0)) ∧ (0 : Int) < 2 :=
  ⟨c9_range_order_and_stats.1 0 "today" 0 0 rfl,
   c9_range_order_and_stats.2 [⟨"A", 0, 0, none, "p", none, none, "m", true⟩]
     ["A", "B"] 0 0 2 rfl⟩

/-! ## C2: shape of the per-date-per-user matrix -/

/-- Counterexample for C2: with the duplicated user list `["A", "A"]`
(`k = 2`) and a one-day range, the matrix holds one cell, not
`(d2-d1+1) * k = 2` — the dict comprehension collapses duplicate names. -/
theorem c2_matrix_counterexample :
    totalEntries (get_reports_by_users_and_date_range [] ["A", "A"] 0 0) = 1 ∧
    totalEntries (get_reports_by_users_and_date_range [] ["A", "A"] 0 0) ≠ 2 := by
  decide

/-- Claim C2 (corrected): for a non-empty user list and an ordered range,
the matrix contains exactly the dates `s..e` (each once), every inner map
holds exactly the requested users (each once) with absent cells explicit
as `none`, and the total cell count is `(d2-d1+1) * k` with `k` the number
of *distinct* requested users (duplicates collapse in the dict). -/
theorem c2_matrix_shape (db : List ReportRow) (users : List String) (s e : Int)
    (hu : users ≠ []) (_hr : s ≤ e) :
    ((get_reports_by_users_and_date_range db users s e).map Prod.fst = dateRange s e) ∧
    ((get_reports_by_users_and_date_range db users s e).map Prod.fst).Nodup ∧
    (∀ d : Int, d ∈ (get_reports_by_users_and_date_range db users s e).map Prod.fst ↔
      (s ≤ d ∧ d ≤ e)) ∧
    (∀ p ∈ get_reports_by_users_and_date_range db users s e,
      (p.2.map Prod.fst).Nodup ∧ ∀ u : String, u ∈ p.2.map Prod.fst ↔ u ∈ users) ∧
    totalEntries (get_reports_by_users_and_date_range db users s e) =
      (e + 1 - s).toNat * users.dedup.length := by
  have hMdef : get_reports_by_users_and_date_range db users s e =
      (db.filter fun r =>
        users.contains r.user_name && s ≤ r.report_date && r.report_date ≤ e).foldl
        fillStep ((dateRange s e).map fun d => (d, initUsers users)) := by
    unfold get_reports_by_users_and_date_range
    rw [if_neg hu]
  have hmap : (get_reports_by_users_and_date_range db users s e).map Prod.fst =
      dateRange s e := by
    rw [hMdef, fill_foldl_map_fst, List.map_map]
    rw [show (Prod.fst ∘ fun d : Int => (d, initUsers users)) = id from rfl, List.map_id]
  have hinner : ∀ p ∈ get_reports_by_users_and_date_range db users s e,
      p.2.map Prod.fst = (initUsers users).map Prod.fst := by
    rw [hMdef]
    refine fill_foldl_inner_inv _ _ _ ?_
    intro q hq
    rcases List.mem_map.mp hq with ⟨d, _, rfl⟩
    rfl
  refine ⟨hmap, ?_, ?_, ?_, ?_⟩
  · rw [hmap]
    exact dateRange_nodup s e
  · intro d
    rw [hmap]
    exact dateRange_mem s e d
  · intro p hp
    constructor
    · rw [hinner p hp]
      exact initUsers_nodup_fst users
    · intro u
      rw [hinner p hp, ← dictGet_isSome_iff_mem_fst]
      exact initUsers_isSome users u
  · have hlen : (get_reports_by_users_and_date_range db users s e).length =
        (e + 1 - s).toNat := get_reports_length db users s e hu
    rw [totalEntries_of_inner _ ((initUsers users).map Prod.fst) hinner, hlen,
      List.length_map, initUsers_length]

/-- Witness for C2's amended claim: users `["A", "B"]` over the two-day
range `[0, 1]` with an empty table. -/
theorem c2_matrix_shape_witness :
    ((get_reports_by_users_and_date_range [] ["A", "B"] 0 1).map Prod.fst =
      dateRange 0 1) ∧
    ((get_reports_by_users_and_date_range [] ["A", "B"] 0 1).map Prod.fst).Nodup ∧
    (∀ d : Int, d ∈ (get_reports_by_users_and_date_range [] ["A", "B"] 0 1).map Prod.fst ↔
      (0 ≤ d ∧ d ≤ 1)) ∧
    (∀ p ∈ get_reports_by_users_and_date_range [] ["A", "B"] 0 1,
      (p.2.map Prod.fst).Nodup ∧ ∀ u : String, u ∈ p.2.map Prod.fst ↔ u ∈ ["A", "B"]) ∧
    totalEntries (get_reports_by_users_and_date_range [] ["A", "B"] 0 1) =
      ((1 : Int) + 1 - 0).toNat * (["A", "B"].dedup).length :=
  c2_matrix_shape [] ["A", "B"] 0 1 (by decide) (by decide)

/-! ## C8: empty extracted message text -/

/-- Claim C8 (confirmed): on a well-shaped body, if the request is
JSON-RPC-shaped (has `jsonrpc` and `method` keys and a message-sending
string method) and the extracted message text is empty, the handler
returns the JSON-RPC error envelope with code -32602; if instead the
request is the simple flat shape with a falsy `message`, it returns the
flat error object with HTTP status 400. -/
theorem c8_empty_message_routing (body : Json) (frq fmsg fctx fses ts fchat : String) :
    (∀ m : String, wellShaped body = true →
      body.hasKey "jsonrpc" = true → body.hasKey "method" = true →
      body.getD "method" (.str "message/send") = .str m →
      isMsgSendMethod m = true →
      (parse_telex_request frq fmsg fctx fses ts body).message_text = "" →
      handle_rpc_route frq fmsg fctx fses ts fchat body =
        .a2aError (parse_telex_request frq fmsg fctx fses ts body).request_id (-32602)
          "Invalid params: message text is required") ∧
    (body.isObj = true →
      (body.hasKey "jsonrpc" && body.hasKey "method") = false →
      pyTruthy (body.getD "message" (.str "")) = false →
      handle_rpc_route frq fmsg fctx fses ts fchat body =
        .simpleError "Message is required" 400) := by
  constructor
  · intro m _ h1 h2 hm hsend htext
    have hcond : (body.hasKey "jsonrpc" && body.hasKey "method") = true := by
      rw [h1, h2]
      rfl
    have hm' : (parse_telex_request frq fmsg fctx fses ts body).method = .str m := hm
    simp only [handle_rpc_route, hcond, hm', hsend, if_true]
    rw [if_pos htext]
  · intro _ hcond hmsg
    have hcond' : ¬ ((body.hasKey "jsonrpc" && body.hasKey "method") = true) := by
      rw [hcond]
      simp
    simp only [handle_rpc_route, if_neg hcond', hmsg]
    rfl

/-- Witness for C8: a Telex envelope with an empty `parts` array routes to
the -32602 envelope; a flat body with an empty `message` routes to the
400 error object. -/
theorem c8_empty_message_routing_witness :
    handle_rpc_route "r" "m" "c" "s" "04112025" "ch"
      (.obj [("jsonrpc", .str "2.0"), ("id", .str "req-1"),
             ("method", .str "message/send"),
             ("params", .obj [("message", .obj [("parts", .arr [])])])]) =
      .a2aError (.str "req-1") (-32602) "Invalid params: message text is required" ∧
    handle_rpc_route "r" "m" "c" "s" "04112025" "ch" (.obj [("message", .str "")]) =
      .simpleError "Message is required" 400 :=
  ⟨(c8_empty_message_routing
      (.obj [("jsonrpc", .str "2.0"), ("id", .str "req-1"),
             ("method", .str "message/send"),
             ("params", .obj [("message", .obj [("parts", .arr [])])])])
      "r" "m" "c" "s" "04112025" "ch").1 "message/send" rfl rfl rfl rfl rfl rfl,
   (c8_empty_message_routing (.obj [("message", .str "")])
      "r" "m" "c" "s" "04112025" "ch").2 rfl rfl rfl⟩

/-! ## C10: context id extraction and session fallback -/

/-- Counterexample for C10: a body whose `params.contextId` is the empty
string yields an empty extracted context id, and (with no user id present)
`parse_telex_request` reaches the final generate-a-fresh-session-token
fallback the claim calls unreachable. -/
theorem c10_session_fallback_counterexample :
    extract_context_id "u" (.obj [("params", .obj [("contextId", .str "")])]) = "" ∧
    (parse_telex_request "r" "m" "u" "s" "04112025"
      (.obj [("params", .obj [("contextId", .str "")])])).session_id =
      "session-" ++ "s" :=
  ⟨rfl, rfl⟩

/-- `extract_context_id` is `str` of the first candidate field, or the
fresh `telex-` token when every candidate is absent. -/
theorem extract_context_id_eq_firstCandidate (fc : String) (body : Json) :
    extract_context_id fc body =
      (match firstCandidate body with
       | some v => pyStr v
       | none => "telex-" ++ fc) := by
  simp only [extract_context_id, firstCandidate]
  repeat' split
  all_goals rfl

/-- Claim C10 (corrected): the extracted context id can only be empty when
some candidate field is present and `str`-converts to the empty string;
and the session key is the daily `{user}-{DDMMYYYY}` id, or the context
id, or — exactly when the extracted context id is empty — the fresh
`session-` token (so the fallback is reachable, but only for empty-string
candidates). -/
theorem c10_context_session (body : Json) (fc frq fmsg fses ts : String) :
    (extract_context_id fc body = "" →
      ∃ v, firstCandidate body = some v ∧ pyStr v = "") ∧
    ((parse_telex_request frq fmsg fc fses ts body).session_id =
        generate_daily_session_id ts
          (parse_telex_request frq fmsg fc fses ts body).telex_user_id ∨
      (parse_telex_request frq fmsg fc fses ts body).session_id =
        (parse_telex_request frq fmsg fc fses ts body).context_id ∨
      ((parse_telex_request frq fmsg fc fses ts body).context_id = "" ∧
        (parse_telex_request frq fmsg fc fses ts body).session_id =
          "session-" ++ fses)) := by
  constructor
  · intro h
    rw [extract_context_id_eq_firstCandidate] at h
    cases hfc : firstCandidate body with
    | some v =>
      rw [hfc] at h
      exact ⟨v, rfl, h⟩
    | none =>
      rw [hfc] at h
      exfalso
      have h2 := congrArg String.length h
      rw [String.length_append] at h2
      rw [show ("telex-" : String).length = 6 from rfl,
        show ("" : String).length = 0 from rfl] at h2
      omega
  · have hsess : (parse_telex_request frq fmsg fc fses ts body).session_id =
        (if pyTruthy (parse_telex_request frq fmsg fc fses ts body).telex_user_id then
          generate_daily_session_id ts
            (parse_telex_request frq fmsg fc fses ts body).telex_user_id
         else if (parse_telex_request frq fmsg fc fses ts body).context_id ≠ "" then
          (parse_telex_request frq fmsg fc fses ts body).context_id
         else "session-" ++ fses) := rfl
    rw [hsess]
    split
    · exact .inl rfl
    · split
      · exact .inr (.inl rfl)
      · rename_i hne
        exact .inr (.inr ⟨not_not.mp hne, rfl⟩)

/-- Witness for C10's amended claim at the empty-`contextId` body. -/
theorem c10_context_session_witness :
    (∃ v, firstCandidate (.obj [("params", .obj [("contextId", .str "")])]) = some v ∧
      pyStr v = "") ∧
    ((parse_telex_request "r" "m" "u" "s" "04112025"
        (.obj [("params", .obj [("contextId", .str "")])])).session_id =
        generate_daily_session_id "04112025"
          (parse_telex_request "r" "m" "u" "s" "04112025"
            (.obj [("params", .obj [("contextId", .str "")])])).telex_user_id ∨
      (parse_telex_request "r" "m" "u" "s" "04112025"
        (.obj [("params", .obj [("contextId", .str "")])])).session_id =
        (parse_telex_request "r" "m" "u" "s" "04112025"
          (.obj [("params", .obj [("contextId", .str "")])])).context_id ∨
      ((parse_telex_request "r" "m" "u" "s" "04112025"
          (.obj [("params", .obj [("contextId", .str "")])])).context_id = "" ∧
        (parse_telex_request "r" "m" "u" "s" "04112025"
          (.obj [("params", .obj [("contextId", .str "")])])).session_id =
          "session-" ++ "s")) :=
  ⟨(c10_context_session (.obj [("params", .obj [("contextId", .str "")])])
      "u" "r" "m" "s" "04112025").1 rfl,
   (c10_context_session (.obj [("params", .obj [("contextId", .str "")])])
      "u" "r" "m" "s" "04112025").2⟩

end Standup
